import Mathlib

/-!
Verification development for the pytunes-reporter client (src/reporter.py).

The Python module is shallowly embedded: each method of the `Reporter` class
becomes a Lean function over an explicit `Reporter` state.  The network is
modelled by a scripted list of HTTP responses (`Net.script`) that requests
consume in order, together with a log of the requests issued (`Net.log`); one
`requests.post` call consumes exactly one scripted response and appends exactly
one logged request.  Python exceptions become `Except PyErr`.  Library
behaviour the source relies on (requests.Response.raise_for_status, the
case-insensitive header map, str.capitalize, datetime.strptime with format
"%Y-%m-%d", the csv module with the excel_tab dialect, csv.DictReader) is
embedded from the documented and observed semantics of those libraries.
XML parsing (xml.etree.ElementTree.fromstring) is abstracted: a scripted
response carries the element tree of its body directly.  gzip decompression
plus utf-8 decoding is abstracted as a function argument constrained, where
needed, by its defining round-trip property.
-/

/-- Python exceptions that the embedded code can raise.  `noResponse` is an
artifact of the scripted-network model: it signals that the script ran out of
responses, a situation the real network cannot produce. -/
inductive PyErr where
  | httpError (status : Nat)
  | keyError
  | attributeError
  | typeError
  | valueError
  | indexError
  | csvError
  | noResponse
deriving DecidableEq, Repr

/-- Calendar date as produced by datetime.date; comparison is lexicographic on
(year, month, day), matching datetime.date ordering. -/
structure PyDate where
  year : Nat
  month : Nat
  day : Nat
deriving DecidableEq, Repr

/-- Strict order on dates, matching the datetime.date comparison used by
`expiration_date > datetime.now().date()` in the source. -/
def pyDateLt (a b : PyDate) : Bool :=
  a.year < b.year ||
    (a.year == b.year && (a.month < b.month ||
      (a.month == b.month && a.day < b.day)))

/-- Leap-year test of the proleptic Gregorian calendar used by datetime. -/
def isLeapYear (y : Nat) : Bool :=
  (y % 4 == 0 && y % 100 != 0) || y % 400 == 0

/-- Number of days in a month, as validated by datetime.strptime. -/
def daysInMonth (y m : Nat) : Nat :=
  if m == 2 then (if isLeapYear y then 29 else 28)
  else if m == 4 || m == 6 || m == 9 || m == 11 then 30
  else 31

/-- Split of a character list at every hyphen, the shape "%Y-%m-%d" imposes
on the input. -/
def splitDash : List Char → List (List Char)
  | [] => [[]]
  | c :: cs =>
    if c == Char.ofNat 45 then [] :: splitDash cs
    else
      match splitDash cs with
      | [] => [[c]]
      | p :: ps => (c :: p) :: ps

/-- Digit run read as a number; none when empty or containing a non-digit. -/
def charsToNat (l : List Char) : Option Nat :=
  if !l.isEmpty && l.all Char.isDigit then
    some (l.foldl (fun n c => n * 10 + (c.toNat - 48)) 0)
  else none

/-- Embedded datetime.strptime(s, "%Y-%m-%d").date(): the year is exactly four
digits and at least 1, month and day are one or two digits, month in 1..12 and
day within the month; any other input raises (modelled as `none`). -/
def parseDate (s : String) : Option PyDate :=
  match splitDash s.data with
  | [ys, ms, ds] =>
    if ys.length == 4 && (ms.length == 1 || ms.length == 2) &&
        (ds.length == 1 || ds.length == 2) then
      match charsToNat ys, charsToNat ms, charsToNat ds with
      | some y, some m, some d =>
        if 1 ≤ y && 1 ≤ m && m ≤ 12 && 1 ≤ d && d ≤ daysInMonth y m then
          some ⟨y, m, d⟩
        else none
      | _, _, _ => none
    else none
  | _ => none

/-- Embedded str.capitalize(): first character uppercased, the remaining
characters lowercased (Python lowercases the tail, it does not leave it). -/
def pyCapitalize (s : String) : String :=
  match s.data with
  | [] => ""
  | c :: cs => String.mk (c.toUpper :: cs.map Char.toLower)

/-- Element tree node, the image of xml.etree.ElementTree.fromstring: a tag,
the optional text before the first child, and the list of child elements in
document order. -/
inductive XmlElem where
  | node (tag : String) (text : Option String) (children : List XmlElem)

/-- Tag of an element. -/
def XmlElem.tag : XmlElem → String
  | .node t _ _ => t

/-- Text of an element (None in Python when absent). -/
def XmlElem.text : XmlElem → Option String
  | .node _ x _ => x

/-- Children of an element in document order. -/
def XmlElem.children : XmlElem → List XmlElem
  | .node _ _ c => c

/-- Embedded Element.find(tag): the first direct child with the given tag, or
None. -/
def XmlElem.find (e : XmlElem) (t : String) : Option XmlElem :=
  e.children.find? (fun c => c.tag == t)

/-- Scripted HTTP response: the status code, the response headers, and the
element tree that ET.fromstring produces from the body text (responses whose
bodies are never parsed as XML simply carry an unused tree). -/
structure HttpResponse where
  status : Nat
  headers : List (String × String)
  xml : XmlElem

/-- Lowercasing of a string, character by character, as the case-insensitive
header map of requests compares keys. -/
def strLower (s : String) : String :=
  String.mk (s.data.map Char.toLower)

/-- Embedded lookup in requests.Response.headers, which is case-insensitive. -/
def headerGet (hs : List (String × String)) (k : String) : Option String :=
  (hs.find? (fun p => strLower p.1 == strLower k)).map (fun p => p.2)

/-- Python dict assignment d[k] = v: replace the value in place when the key is
present, append the pair otherwise. -/
def dictSet {K V : Type} [BEq K] (d : List (K × V)) (k : K) (v : V) :
    List (K × V) :=
  if d.any (fun p => p.1 == k) then
    d.map (fun p => if p.1 == k then (k, v) else p)
  else d ++ [(k, v)]

/-- Python dict.update / double-star merge: fold dict assignment over the
entries of the update. -/
def dictUpd {K V : Type} [BEq K] (d upd : List (K × V)) : List (K × V) :=
  upd.foldl (fun acc p => dictSet acc p.1 p.2) d

/-- Escape of a character inside a JSON string literal, as json.dumps writes
the strings the source serializes (none of which carry control characters). -/
def jsonEscapeChar (c : Char) : List Char :=
  if c == Char.ofNat 34 then [Char.ofNat 92, Char.ofNat 34]
  else if c == Char.ofNat 92 then [Char.ofNat 92, Char.ofNat 92]
  else [c]

/-- JSON string literal for an optional Python string (None serializes as
null). -/
def jsonVal : Option String → String
  | none => "null"
  | some s =>
    String.mk (Char.ofNat 34 :: (s.data.map jsonEscapeChar).flatten ++
      [Char.ofNat 34])

/-- Embedded json.dumps on a string-keyed dict, with the default separators
of the json module. -/
def jsonDumps (m : List (String × Option String)) : String :=
  "\x7b" ++
    String.intercalate ", "
      (m.map (fun p => jsonVal (some p.1) ++ ": " ++ jsonVal p.2)) ++
  "\x7d"

/-- One region record produced by _process_regions. -/
structure RegionVal where
  code : Option String
  reports : List (Option String)
deriving DecidableEq, Repr

/-- One vendor record produced by _obtain_vendor_regions. -/
structure VendorEntry where
  id : Option String
  regions : List RegionVal
deriving DecidableEq, Repr

/-- State of one Reporter instance.  Form values are Option String because
element text extracted from XML can be None; `user_id = none` models the
attribute not existing on the instance (the constructor only sets it on the
password branch), and reading it then raises AttributeError. -/
structure Reporter where
  _access_token : Option String
  _vendors : Option (List (Option String))
  _vendors_regions : Option (List (Option String × VendorEntry))
  account : String
  user_id : Option String
  password : Option String

/-- Class attribute Reporter.mode. -/
def Reporter.mode : String := "Robot.XML"

/-- Class attribute Reporter.version. -/
def Reporter.version : String := "2.2"

/-- Truthiness of a Python string slot: falsy when the slot holds None or the
empty string. -/
def truthyStr : Option String → Bool
  | none => false
  | some s => !(s == "")

/-- Truthiness of a Python list (or dict rendered as an association list)
slot: falsy when the slot holds None or an empty collection. -/
def truthyList {α : Type} : Option (List α) → Bool
  | none => false
  | some l => !l.isEmpty

/-- Embedded Reporter.__init__: an explicit non-empty access_token is stored
and the user_id/password attributes are never created; otherwise user_id and
password are stored and the token slot keeps the class default, the empty
string.  The account is stored either way. -/
def Reporter.init (account access_token password user_id : String) :
    Reporter :=
  if access_token != "" then
    { _access_token := some access_token, _vendors := none,
      _vendors_regions := none, account := account,
      user_id := none, password := none }
  else
    { _access_token := some "", _vendors := none,
      _vendors_regions := none, account := account,
      user_id := some user_id, password := some password }

/-- One issued HTTP request: the endpoint and the form body that
requests.post would submit. -/
structure HttpRequest where
  endpoint : String
  data : List (String × Option String)

/-- Scripted network: responses still to be served, and the requests issued
so far. -/
structure Net where
  script : List HttpResponse
  log : List HttpRequest

/-- Embedded command construction of Reporter.make_request: the bracketed
command string, with the account segment present exactly when the account
attribute is truthy (non-empty). -/
def build_command (account cmd_type command : String) : String :=
  if account != "" then
    "[p=Reporter.properties, a=" ++ account ++ " " ++ pyCapitalize cmd_type ++
      "." ++ command ++ "]"
  else
    "[p=Reporter.properties, " ++ pyCapitalize cmd_type ++ "." ++ command ++
      "]"

/-- Form body assembled by Reporter.make_request: version, mode, the
credential fields and the queryInput merged into one dict, serialized as JSON
under the single field jsonRequest, with the extra params then merged in as
sibling fields. -/
def build_request (r : Reporter) (cmd_type command : String)
    (credentials extra_params : List (String × Option String)) :
    HttpRequest :=
  let cmd := build_command r.account cmd_type command
  let endpoint :=
    "https://reportingitc-reporter.apple.com/reportservice/" ++ cmd_type ++
      "/v1"
  let data :=
    dictUpd (dictUpd [("version", some Reporter.version),
      ("mode", some Reporter.mode)] credentials) [("queryInput", some cmd)]
  { endpoint := endpoint, data := dictUpd [("jsonRequest", some (jsonDumps data))] extra_params }

/-- Embedded requests.Response.raise_for_status: raises HTTPError exactly for
status codes in [400, 600). -/
def raise_for_status (resp : HttpResponse) : Except PyErr Unit :=
  if 400 ≤ resp.status ∧ resp.status < 600 then
    .error (.httpError resp.status)
  else .ok ()

/-- Embedded Reporter.make_request: build the request, post it (append it to
the log and consume the next scripted response), then raise_for_status.  The
method reads the instance but never writes it, so the Reporter component of
the result is the input instance. -/
def Reporter.make_request (r : Reporter) (cmd_type command : String)
    (credentials : List (String × Option String))
    (extra_params : List (String × Option String))
    (net : Net) : (Reporter × Net) × Except PyErr HttpResponse :=
  let req := build_request r cmd_type command credentials extra_params
  match net.script with
  | [] => ((r, { script := [], log := net.log ++ [req] }), .error .noResponse)
  | resp :: rest =>
    let net1 : Net := { script := rest, log := net.log ++ [req] }
    match raise_for_status resp with
    | .ok _ => ((r, net1), .ok resp)
    | .error e => ((r, net1), .error e)

/-- Tail of Reporter._obtain_access_token after the view step decided to
proceed: the generate call, the service_request_id header read (KeyError when
absent), and the confirm call carrying isExistingToken=Y and the requestId as
extra form fields; the AccessToken element text of the confirm response is
returned (find returning None makes the .text access raise AttributeError). -/
def generate_confirm (r : Reporter)
    (credentials : List (String × Option String)) (net : Net) :
    (Reporter × Net) × Except PyErr (Option String) :=
  match r.make_request "sales" "generateToken" credentials [] net with
  | ((r, net), .error e) => ((r, net), .error e)
  | ((r, net), .ok resp2) =>
    match headerGet resp2.headers "service_request_id" with
    | none => ((r, net), .error .keyError)
    | some srid =>
      let params : List (String × Option String) :=
        [("isExistingToken", some "Y"), ("requestId", some srid)]
      match r.make_request "sales" "generateToken" credentials params net with
      | ((r, net), .error e) => ((r, net), .error e)
      | ((r, net), .ok resp3) =>
        match resp3.xml.find "AccessToken" with
        | none => ((r, net), .error .attributeError)
        | some el => ((r, net), .ok el.text)

/-- Embedded Reporter._obtain_access_token: view the existing token; when the
response carries an ExpirationDate whose parsed date is strictly after today,
return the view response's AccessToken text; otherwise run the
generate/confirm sequence.  Reading user_id or password on an instance built
with an explicit token raises AttributeError, strptime of a missing text
raises TypeError and of an unparsable text ValueError. -/
def Reporter.obtain_access_token (r : Reporter) (today : PyDate) (net : Net) :
    (Reporter × Net) × Except PyErr (Option String) :=
  match r.user_id, r.password with
  | some uid, some pw =>
    let credentials : List (String × Option String) :=
      [("userid", some uid), ("password", some pw)]
    match r.make_request "sales" "viewToken" credentials [] net with
    | ((r, net), .error e) => ((r, net), .error e)
    | ((r, net), .ok resp) =>
      match resp.xml.find "ExpirationDate" with
      | some elem =>
        match elem.text with
        | none => ((r, net), .error .typeError)
        | some txt =>
          match parseDate txt with
          | none => ((r, net), .error .valueError)
          | some d =>
            if pyDateLt today d then
              match resp.xml.find "AccessToken" with
              | none => ((r, net), .error .attributeError)
              | some el => ((r, net), .ok el.text)
            else generate_confirm r credentials net
      | none => generate_confirm r credentials net
  | _, _ => ((r, net), .error .attributeError)

/-- Embedded access_token property: return the stored token when it is truthy,
otherwise derive one, store it, and return it; a failing derivation leaves the
slot unassigned. -/
def Reporter.access_token (r : Reporter) (today : PyDate) (net : Net) :
    (Reporter × Net) × Except PyErr (Option String) :=
  if truthyStr r._access_token then ((r, net), .ok r._access_token)
  else
    match r.obtain_access_token today net with
    | ((r, net), .ok t) => (({ r with _access_token := t }, net), .ok t)
    | ((r, net), .error e) => ((r, net), .error e)

/-- Embedded Reporter._obtain_vendor_list: resolve the access token, issue the
sales getVendors request, and map the response children to their text values
in document order. -/
def Reporter.obtain_vendor_list (r : Reporter) (today : PyDate) (net : Net) :
    (Reporter × Net) × Except PyErr (List (Option String)) :=
  match r.access_token today net with
  | ((r, net), .error e) => ((r, net), .error e)
  | ((r, net), .ok tok) =>
    let credentials : List (String × Option String) := [("accesstoken", tok)]
    match r.make_request "sales" "getVendors" credentials [] net with
    | ((r, net), .error e) => ((r, net), .error e)
    | ((r, net), .ok resp) =>
      ((r, net), .ok (resp.xml.children.map XmlElem.text))

/-- Embedded vendors property: return the stored list when it is truthy,
otherwise fetch it, store it, and return it. -/
def Reporter.vendors (r : Reporter) (today : PyDate) (net : Net) :
    (Reporter × Net) × Except PyErr (List (Option String)) :=
  if truthyList r._vendors then ((r, net), .ok (r._vendors.getD []))
  else
    match r.obtain_vendor_list today net with
    | ((r, net), .ok l) => (({ r with _vendors := some l }, net), .ok l)
    | ((r, net), .error e) => ((r, net), .error e)

/-- Body of the list comprehension in Reporter._process_regions: keep the
children tagged Region in order; for each, the first child's text is the code
and the texts of the second child's children are the reports; a Region child
with fewer than two children raises IndexError. -/
def process_regions_go : List XmlElem → Except PyErr (List RegionVal)
  | [] => .ok []
  | rg :: rest =>
    if rg.tag == "Region" then
      match rg.children.get? 0, rg.children.get? 1 with
      | some c0, some c1 =>
        match process_regions_go rest with
        | .ok tl =>
          .ok ({ code := c0.text,
                 reports := c1.children.map XmlElem.text } :: tl)
        | .error e => .error e
      | _, _ => .error .indexError
    else process_regions_go rest

/-- Embedded Reporter._process_regions. -/
def process_regions (child : XmlElem) : Except PyErr (List RegionVal) :=
  process_regions_go child.children

/-- Loop of Reporter._obtain_vendor_regions over the root's children: each
child contributes a dict entry keyed by its first child's text (IndexError
when it has no children), holding that id and the processed regions. -/
def decode_vendor_regions_go :
    List XmlElem → List (Option String × VendorEntry) →
    Except PyErr (List (Option String × VendorEntry))
  | [], acc => .ok acc
  | child :: rest, acc =>
    match child.children.get? 0 with
    | none => .error .indexError
    | some c0 =>
      match process_regions child with
      | .error e => .error e
      | .ok regs =>
        decode_vendor_regions_go rest
          (dictSet acc c0.text { id := c0.text, regions := regs })

/-- Decoder half of Reporter._obtain_vendor_regions, applied to the parsed
response body. -/
def decode_vendor_regions (root : XmlElem) :
    Except PyErr (List (Option String × VendorEntry)) :=
  decode_vendor_regions_go root.children []

/-- Embedded Reporter._obtain_vendor_regions: resolve the access token, issue
the finance getVendorsAndRegions request, and decode the response. -/
def Reporter.obtain_vendor_regions (r : Reporter) (today : PyDate)
    (net : Net) :
    (Reporter × Net) × Except PyErr (List (Option String × VendorEntry)) :=
  match r.access_token today net with
  | ((r, net), .error e) => ((r, net), .error e)
  | ((r, net), .ok tok) =>
    let credentials : List (String × Option String) := [("accesstoken", tok)]
    match r.make_request "finance" "getVendorsAndRegions" credentials []
        net with
    | ((r, net), .error e) => ((r, net), .error e)
    | ((r, net), .ok resp) =>
      match decode_vendor_regions resp.xml with
      | .ok dict => ((r, net), .ok dict)
      | .error e => ((r, net), .error e)

/-- Embedded vendors_and_regions property: return the stored dict when it is
truthy, otherwise fetch it, store it, and return it. -/
def Reporter.vendors_and_regions (r : Reporter) (today : PyDate) (net : Net) :
    (Reporter × Net) × Except PyErr (List (Option String × VendorEntry)) :=
  if truthyList r._vendors_regions then
    ((r, net), .ok (r._vendors_regions.getD []))
  else
    match r.obtain_vendor_regions today net with
    | ((r, net), .ok d) =>
      (({ r with _vendors_regions := some d }, net), .ok d)
    | ((r, net), .error e) => ((r, net), .error e)

/-- Tab character, the delimiter of the excel_tab dialect. -/
def tabC : Char := Char.ofNat 9

/-- Line feed. -/
def nlC : Char := Char.ofNat 10

/-- Carriage return. -/
def crC : Char := Char.ofNat 13

/-- Double quote, the quotechar of the excel_tab dialect. -/
def dqC : Char := Char.ofNat 34

/-- Parser state of the csv module's reader. -/
inductive CsvSt where
  | startRecord
  | startField
  | inField
  | inQuoted
  | quoteInQuoted
  | eatCrnl
deriving DecidableEq, Repr

/-- Embedded character loop of the csv reader with the excel_tab dialect
(delimiter tab, quotechar double quote, doublequote on, strict off): fields
accumulate in fld, the current record in row, finished records in rows.  A
blank line yields an empty record; a quote pair inside a quoted field yields a
literal quote; a lone quote closing a quoted field followed by an ordinary
character resumes the field unquoted (strict mode is off); a carriage return
not followed by a line feed raises the csv error the reader reports for stray
newline characters. -/
def csvParse : List Char → CsvSt → List Char → List String →
    List (List String) → Except PyErr (List (List String))
  | [], st, fld, row, rows =>
    match st with
    | .startRecord => .ok rows
    | .eatCrnl => .ok rows
    | _ => .ok (rows ++ [row ++ [String.mk fld]])
  | c :: cs, .startRecord, fld, row, rows =>
    if c == nlC then csvParse cs .startRecord fld row (rows ++ [[]])
    else if c == crC then csvParse cs .eatCrnl fld row (rows ++ [[]])
    else if c == tabC then
      csvParse cs .startField fld (row ++ [String.mk fld]) rows
    else if c == dqC then csvParse cs .inQuoted fld row rows
    else csvParse cs .inField (fld ++ [c]) row rows
  | c :: cs, .startField, fld, row, rows =>
    if c == nlC then
      csvParse cs .startRecord [] [] (rows ++ [row ++ [String.mk fld]])
    else if c == crC then
      csvParse cs .eatCrnl [] [] (rows ++ [row ++ [String.mk fld]])
    else if c == tabC then
      csvParse cs .startField fld (row ++ [String.mk fld]) rows
    else if c == dqC then csvParse cs .inQuoted fld row rows
    else csvParse cs .inField (fld ++ [c]) row rows
  | c :: cs, .inField, fld, row, rows =>
    if c == nlC then
      csvParse cs .startRecord [] [] (rows ++ [row ++ [String.mk fld]])
    else if c == crC then
      csvParse cs .eatCrnl [] [] (rows ++ [row ++ [String.mk fld]])
    else if c == tabC then
      csvParse cs .startField [] (row ++ [String.mk fld]) rows
    else csvParse cs .inField (fld ++ [c]) row rows
  | c :: cs, .inQuoted, fld, row, rows =>
    if c == dqC then csvParse cs .quoteInQuoted fld row rows
    else csvParse cs .inQuoted (fld ++ [c]) row rows
  | c :: cs, .quoteInQuoted, fld, row, rows =>
    if c == dqC then csvParse cs .inQuoted (fld ++ [dqC]) row rows
    else if c == nlC then
      csvParse cs .startRecord [] [] (rows ++ [row ++ [String.mk fld]])
    else if c == crC then
      csvParse cs .eatCrnl [] [] (rows ++ [row ++ [String.mk fld]])
    else if c == tabC then
      csvParse cs .startField [] (row ++ [String.mk fld]) rows
    else csvParse cs .inField (fld ++ [c]) row rows
  | c :: cs, .eatCrnl, fld, row, rows =>
    if c == nlC then csvParse cs .startRecord fld row rows
    else if c == crC then csvParse cs .eatCrnl fld row rows
    else .error .csvError

/-- Records produced by csv.reader over a decoded report body. -/
def csvRows (s : String) : Except PyErr (List (List String)) :=
  csvParse s.data .startRecord [] [] []

/-- Value slot of a row dict produced by csv.DictReader: an ordinary cell, the
restval None filled in for missing cells, or the list of extra cells stored
under the restkey None. -/
inductive CellVal where
  | str (s : String)
  | null
  | rest (l : List String)
deriving DecidableEq, Repr

/-- Embedded row construction of csv.DictReader: dict(zip(fieldnames, row)),
then the extra cells under the restkey None when the row is longer, or the
restval None for the missing fieldnames when it is shorter. -/
def rowDict (fn row : List String) : List (Option String × CellVal) :=
  let d := (fn.zip row).foldl
    (fun d p => dictSet d (some p.1) (CellVal.str p.2)) []
  if fn.length < row.length then
    dictSet d none (CellVal.rest (row.drop fn.length))
  else
    (fn.drop row.length).foldl (fun d k => dictSet d (some k) CellVal.null) d

/-- Embedded csv.DictReader iteration: the first record supplies the
fieldnames, empty records are skipped, and every other record becomes a row
dict. -/
def dictReader (s : String) :
    Except PyErr (List (List (Option String × CellVal))) :=
  match csvRows s with
  | .error e => .error e
  | .ok [] => .ok []
  | .ok (fieldnames :: rest) =>
    .ok ((rest.filter (fun row => !(row == []))).map (rowDict fieldnames))

/-- Embedded Reporter._process_gzip: decompress the body and decode it as
utf-8 (both abstracted into the decompress argument), then run the DictReader
over the text. -/
def process_gzip (decompress : String → String) (content : String) :
    Except PyErr (List (List (Option String × CellVal))) :=
  dictReader (decompress content)

/-- Modelled from the spec: doubling of internal quotes inside a quote-wrapped
field of the tab-separated fixture. -/
def doubledQuotes (l : List Char) : List Char :=
  (l.map (fun c => if c == dqC then [dqC, dqC] else [c])).flatten

/-- Modelled from the spec: serialization of one fixture cell under the
double-quote escaping rule, which quote-wraps a field containing the delimiter
or the quote character and doubles the internal quotes. -/
def encodeField (f : String) : String :=
  if f.data.contains tabC || f.data.contains dqC then
    String.mk (dqC :: doubledQuotes f.data ++ [dqC])
  else f

/-- Modelled from the spec: one fixture line, cells joined by the tab
delimiter. -/
def encodeRow : List String → String
  | [] => ""
  | [f] => encodeField f
  | f :: g :: tl => encodeField f ++ "\t" ++ encodeRow (g :: tl)

/-- Modelled from the spec: the fixture body, one line per record, each
terminated by the dialect's line terminator. -/
def encodeLines : List (List String) → String
  | [] => ""
  | r :: rs => encodeRow r ++ "\r\n" ++ encodeLines rs

/-- Modelled from the spec: the whole synthetic fixture, one header row
followed by the data rows. -/
def encodeTable (header : List String) (rows : List (List String)) : String :=
  encodeLines (header :: rows)

/-- Cell wellformedness for the round trip: the field carries neither line
terminator character (the fixture is a tab-separated text whose only line
breaks are the row terminators). -/
def noCRLF (f : String) : Bool :=
  !(f.data.contains nlC || f.data.contains crC)

lemma make_request_ok (r : Reporter) (ct cm : String)
    (cr ex : List (String × Option String)) (resp : HttpResponse)
    (rest : List HttpResponse) (log : List HttpRequest)
    (h : ¬(400 ≤ resp.status ∧ resp.status < 600)) :
    r.make_request ct cm cr ex { script := resp :: rest, log := log } =
      ((r, { script := rest, log := log ++ [build_request r ct cm cr ex] }),
        .ok resp) := by
  simp [Reporter.make_request, raise_for_status, h]

lemma make_request_err (r : Reporter) (ct cm : String)
    (cr ex : List (String × Option String)) (resp : HttpResponse)
    (rest : List HttpResponse) (log : List HttpRequest)
    (h1 : 400 ≤ resp.status) (h2 : resp.status < 600) :
    r.make_request ct cm cr ex { script := resp :: rest, log := log } =
      ((r, { script := rest, log := log ++ [build_request r ct cm cr ex] }),
        .error (.httpError resp.status)) := by
  simp [Reporter.make_request, raise_for_status, h1, h2]

lemma generate_confirm_ok (r : Reporter)
    (creds : List (String × Option String)) (r2 r3 : HttpResponse)
    (rest : List HttpResponse) (log : List HttpRequest) (srid : String)
    (el3 : XmlElem)
    (h2 : ¬(400 ≤ r2.status ∧ r2.status < 600))
    (h3 : ¬(400 ≤ r3.status ∧ r3.status < 600))
    (hhdr : headerGet r2.headers "service_request_id" = some srid)
    (hfind : r3.xml.find "AccessToken" = some el3) :
    generate_confirm r creds { script := r2 :: r3 :: rest, log := log } =
      ((r, { script := rest,
             log := log ++ [build_request r "sales" "generateToken" creds [],
               build_request r "sales" "generateToken" creds
                 [("isExistingToken", some "Y"), ("requestId", some srid)]] }),
        .ok el3.text) := by
  rw [generate_confirm, make_request_ok r _ _ _ _ _ _ _ h2]
  dsimp only
  rw [hhdr]
  dsimp only
  rw [make_request_ok r _ _ _ _ _ _ _ h3]
  dsimp only
  rw [hfind]
  simp


/-- Credential form fields of the token-derivation requests. -/
def tokenCreds (uid pw : String) : List (String × Option String) :=
  [("userid", some uid), ("password", some pw)]

/-- Expected view request of the token derivation. -/
def viewReq (r : Reporter) (uid pw : String) : HttpRequest :=
  build_request r "sales" "viewToken" (tokenCreds uid pw) []

/-- Expected generate request of the token derivation. -/
def genReq (r : Reporter) (uid pw : String) : HttpRequest :=
  build_request r "sales" "generateToken" (tokenCreds uid pw) []

/-- Expected confirm request of the token derivation, carrying the extra
form fields. -/
def confirmReq (r : Reporter) (uid pw srid : String) : HttpRequest :=
  build_request r "sales" "generateToken" (tokenCreds uid pw)
    [("isExistingToken", some "Y"), ("requestId", some srid)]

lemma obtain_short_circuit (r : Reporter) (uid pw : String) (today : PyDate)
    (r1 : HttpResponse) (rest : List HttpResponse) (log : List HttpRequest)
    (el elA : XmlElem) (t : String) (d : PyDate)
    (hu : r.user_id = some uid) (hp : r.password = some pw)
    (h1 : ¬(400 ≤ r1.status ∧ r1.status < 600))
    (hexp : r1.xml.find "ExpirationDate" = some el)
    (htxt : el.text = some t)
    (hd : parseDate t = some d)
    (hfut : pyDateLt today d = true)
    (hacc : r1.xml.find "AccessToken" = some elA) :
    r.obtain_access_token today (Net.mk (r1 :: rest) log) =
      ((r, Net.mk rest (log ++ [viewReq r uid pw])), .ok elA.text) := by
  rw [Reporter.obtain_access_token, hu, hp]
  try dsimp only
  rw [make_request_ok r _ _ _ _ _ _ _ h1]
  try dsimp only
  rw [hexp]
  try dsimp only
  rw [htxt]
  try dsimp only
  rw [hd]
  try dsimp only
  rw [hfut]
  try dsimp only
  rw [hacc]
  simp [viewReq, tokenCreds]

lemma obtain_proceed (r : Reporter) (uid pw : String) (today : PyDate)
    (r1 r2 r3 : HttpResponse) (rest : List HttpResponse)
    (log : List HttpRequest) (srid : String) (el3 : XmlElem)
    (hu : r.user_id = some uid) (hp : r.password = some pw)
    (h1 : ¬(400 ≤ r1.status ∧ r1.status < 600))
    (h2 : ¬(400 ≤ r2.status ∧ r2.status < 600))
    (h3 : ¬(400 ≤ r3.status ∧ r3.status < 600))
    (hview : r1.xml.find "ExpirationDate" = none ∨
      ∃ el t d, r1.xml.find "ExpirationDate" = some el ∧ el.text = some t ∧
        parseDate t = some d ∧ pyDateLt today d = false)
    (hhdr : headerGet r2.headers "service_request_id" = some srid)
    (hfind : r3.xml.find "AccessToken" = some el3) :
    r.obtain_access_token today (Net.mk (r1 :: r2 :: r3 :: rest) log) =
      ((r, Net.mk rest
          (log ++ [viewReq r uid pw, genReq r uid pw, confirmReq r uid pw srid])),
        .ok el3.text) := by
  rw [Reporter.obtain_access_token, hu, hp]
  try dsimp only
  rw [make_request_ok r _ _ _ _ _ _ _ h1]
  try dsimp only
  have hgc := generate_confirm_ok r (tokenCreds uid pw) r2 r3 rest
    (log ++ [viewReq r uid pw]) srid el3 h2 h3 hhdr hfind
  rcases hview with hnone | ⟨el, t, d, hel, htxt, hd, hpast⟩
  · rw [hnone]
    try dsimp only
    simp only [viewReq, genReq, confirmReq, tokenCreds] at hgc ⊢
    rw [hgc]
    simp [List.append_assoc]
  · rw [hel]
    try dsimp only
    rw [htxt]
    try dsimp only
    rw [hd]
    try dsimp only
    rw [hpast]
    try dsimp only
    simp only [viewReq, genReq, confirmReq, tokenCreds] at hgc ⊢
    rw [hgc]
    simp [List.append_assoc]

/-- Fixture: view response announcing that no token exists. -/
def respNoToken : HttpResponse :=
  ⟨200, [], .node "ViewToken" none [.node "Message" (some "no token") []]⟩

/-- Fixture: generate response carrying the service request id header. -/
def respGen : HttpResponse :=
  ⟨200, [("SERVICE_REQUEST_ID", "rid123")], .node "Prompt" none []⟩

/-- Fixture: confirm response carrying the fresh access token. -/
def respConfirm : HttpResponse :=
  ⟨200, [], .node "ViewToken" none
    [.node "AccessToken" (some "NEWTOK") []]⟩

/-- Fixture: view response with an unexpired token. -/
def respFresh : HttpResponse :=
  ⟨200, [], .node "ViewToken" none
    [.node "AccessToken" (some "FRESH") [],
     .node "ExpirationDate" (some "2030-01-02") []]⟩

/-- Fixture: view response with an expired token. -/
def respExpired : HttpResponse :=
  ⟨200, [], .node "ViewToken" none
    [.node "AccessToken" (some "OLD") [],
     .node "ExpirationDate" (some "2018-01-02") []]⟩

/-- Fixture date used as "today" by concrete runs. -/
def today0 : PyDate := ⟨2020, 1, 1⟩

/-- C1: for a client constructed from (userId, password), when the view
response carries no usable token (no ExpirationDate, or one on or before
today), obtaining the access token issues exactly the three requests view,
generate, confirm in order, the confirm request carries the extra form fields
isExistingToken=Y and requestId equal to the service_request_id header of the
second response, and the token returned and cached is the AccessToken element
text of the third response. -/
theorem claim1_three_call_token_derivation
    (r : Reporter) (account password user_id : String) (today : PyDate)
    (r1 r2 r3 : HttpResponse) (srid tok : String) (el3 : XmlElem)
    (hr : r = Reporter.init account "" password user_id)
    (h1 : ¬(400 ≤ r1.status ∧ r1.status < 600))
    (h2 : ¬(400 ≤ r2.status ∧ r2.status < 600))
    (h3 : ¬(400 ≤ r3.status ∧ r3.status < 600))
    (hview : r1.xml.find "ExpirationDate" = none ∨
      ∃ el t d, r1.xml.find "ExpirationDate" = some el ∧ el.text = some t ∧
        parseDate t = some d ∧ pyDateLt today d = false)
    (hhdr : headerGet r2.headers "service_request_id" = some srid)
    (hfind : r3.xml.find "AccessToken" = some el3)
    (htok : el3.text = some tok) :
    r.access_token today (Net.mk [r1, r2, r3] []) =
      (({ r with _access_token := some tok },
        Net.mk [] [viewReq r user_id password, genReq r user_id password,
          confirmReq r user_id password srid]),
        .ok (some tok))
    ∧ (confirmReq r user_id password srid).data.lookup "isExistingToken" =
        some (some "Y")
    ∧ (confirmReq r user_id password srid).data.lookup "requestId" =
        some (some srid) := by
  subst hr
  have hu : (Reporter.init account "" password user_id).user_id =
      some user_id := by simp [Reporter.init]
  have hp : (Reporter.init account "" password user_id).password =
      some password := by simp [Reporter.init]
  refine ⟨?_, ?_, ?_⟩
  · rw [Reporter.access_token]
    have htr : truthyStr (Reporter.init account "" password user_id)._access_token = false := by
      simp [Reporter.init, truthyStr]
    rw [htr]
    simp only [Bool.false_eq_true, if_false]
    rw [obtain_proceed _ user_id password today r1 r2 r3 [] [] srid el3 hu hp
      h1 h2 h3 hview hhdr hfind]
    dsimp only
    rw [htok]
    simp
  · rfl
  · rfl

/-- Witness for claim1_three_call_token_derivation at the no-existing-token
fixture. -/
theorem claim1_witness :
    (Reporter.init "" "" "pw" "uid").access_token today0
        (Net.mk [respNoToken, respGen, respConfirm] []) =
      (({ Reporter.init "" "" "pw" "uid" with _access_token := some "NEWTOK" },
        Net.mk [] [viewReq (Reporter.init "" "" "pw" "uid") "uid" "pw",
          genReq (Reporter.init "" "" "pw" "uid") "uid" "pw",
          confirmReq (Reporter.init "" "" "pw" "uid") "uid" "pw" "rid123"]),
        .ok (some "NEWTOK"))
    ∧ (confirmReq (Reporter.init "" "" "pw" "uid") "uid" "pw"
        "rid123").data.lookup "isExistingToken" = some (some "Y")
    ∧ (confirmReq (Reporter.init "" "" "pw" "uid") "uid" "pw"
        "rid123").data.lookup "requestId" = some (some "rid123") :=
  claim1_three_call_token_derivation (Reporter.init "" "" "pw" "uid")
    "" "pw" "uid" today0 respNoToken respGen respConfirm "rid123" "NEWTOK"
    (.node "AccessToken" (some "NEWTOK") []) rfl (by decide) (by decide)
    (by decide) (Or.inl rfl) (by decide) rfl rfl

/-- C2: for a client constructed from (userId, password), the token manager
short-circuits exactly on a view response whose ExpirationDate parses to a
date strictly after today: in that case one network call occurs and the view
response's AccessToken text is returned and cached with no generate/confirm
calls; when the expiration date is on or before today, or absent, the manager
proceeds through the generate and confirm calls. -/
theorem claim2_expiration_short_circuit :
    (∀ (account password user_id : String) (today : PyDate)
      (r1 : HttpResponse) (rest : List HttpResponse) (el elA : XmlElem)
      (t : String) (d : PyDate),
      ¬(400 ≤ r1.status ∧ r1.status < 600) →
      r1.xml.find "ExpirationDate" = some el → el.text = some t →
      parseDate t = some d → pyDateLt today d = true →
      r1.xml.find "AccessToken" = some elA →
      (Reporter.init account "" password user_id).access_token today
          (Net.mk (r1 :: rest) []) =
        (({ Reporter.init account "" password user_id with
            _access_token := elA.text },
          Net.mk rest
            [viewReq (Reporter.init account "" password user_id)
              user_id password]),
          .ok elA.text))
    ∧ (∀ (account password user_id : String) (today : PyDate)
      (r1 r2 r3 : HttpResponse) (rest : List HttpResponse) (srid : String)
      (el3 : XmlElem),
      ¬(400 ≤ r1.status ∧ r1.status < 600) →
      ¬(400 ≤ r2.status ∧ r2.status < 600) →
      ¬(400 ≤ r3.status ∧ r3.status < 600) →
      (r1.xml.find "ExpirationDate" = none ∨
        ∃ el t d, r1.xml.find "ExpirationDate" = some el ∧
          el.text = some t ∧ parseDate t = some d ∧
          pyDateLt today d = false) →
      headerGet r2.headers "service_request_id" = some srid →
      r3.xml.find "AccessToken" = some el3 →
      (Reporter.init account "" password user_id).access_token today
          (Net.mk (r1 :: r2 :: r3 :: rest) []) =
        (({ Reporter.init account "" password user_id with
            _access_token := el3.text },
          Net.mk rest
            [viewReq (Reporter.init account "" password user_id)
              user_id password,
             genReq (Reporter.init account "" password user_id)
              user_id password,
             confirmReq (Reporter.init account "" password user_id)
              user_id password srid]),
          .ok el3.text)) := by
  constructor
  · intro account password user_id today r1 rest el elA t d h1 hexp htxt hd
      hfut hacc
    have hu : (Reporter.init account "" password user_id).user_id =
        some user_id := by simp [Reporter.init]
    have hp : (Reporter.init account "" password user_id).password =
        some password := by simp [Reporter.init]
    rw [Reporter.access_token]
    have htr : truthyStr
        (Reporter.init account "" password user_id)._access_token = false := by
      simp [Reporter.init, truthyStr]
    rw [htr]
    simp only [Bool.false_eq_true, if_false]
    rw [obtain_short_circuit _ user_id password today r1 rest [] el elA t d
      hu hp h1 hexp htxt hd hfut hacc]
    simp
  · intro account password user_id today r1 r2 r3 rest srid el3 h1 h2 h3
      hview hhdr hfind
    have hu : (Reporter.init account "" password user_id).user_id =
        some user_id := by simp [Reporter.init]
    have hp : (Reporter.init account "" password user_id).password =
        some password := by simp [Reporter.init]
    rw [Reporter.access_token]
    have htr : truthyStr
        (Reporter.init account "" password user_id)._access_token = false := by
      simp [Reporter.init, truthyStr]
    rw [htr]
    simp only [Bool.false_eq_true, if_false]
    rw [obtain_proceed _ user_id password today r1 r2 r3 rest [] srid el3
      hu hp h1 h2 h3 hview hhdr hfind]
    simp

/-- Witness for claim2_expiration_short_circuit: the unexpired-token fixture
takes the one-call path and the expired-token fixture takes the three-call
path. -/
theorem claim2_witness :
    ((Reporter.init "" "" "pw" "uid").access_token today0
        (Net.mk [respFresh] []) =
      (({ Reporter.init "" "" "pw" "uid" with
          _access_token := some "FRESH" },
        Net.mk [] [viewReq (Reporter.init "" "" "pw" "uid") "uid" "pw"]),
        .ok (some "FRESH")))
    ∧ ((Reporter.init "" "" "pw" "uid").access_token today0
        (Net.mk [respExpired, respGen, respConfirm] []) =
      (({ Reporter.init "" "" "pw" "uid" with
          _access_token := some "NEWTOK" },
        Net.mk [] [viewReq (Reporter.init "" "" "pw" "uid") "uid" "pw",
          genReq (Reporter.init "" "" "pw" "uid") "uid" "pw",
          confirmReq (Reporter.init "" "" "pw" "uid") "uid" "pw" "rid123"]),
        .ok (some "NEWTOK"))) := by
  constructor
  · exact claim2_expiration_short_circuit.1 "" "pw" "uid" today0 respFresh []
      (.node "ExpirationDate" (some "2030-01-02") [])
      (.node "AccessToken" (some "FRESH") []) "2030-01-02" ⟨2030, 1, 2⟩
      (by decide) rfl rfl (by decide) (by decide) rfl
  · exact claim2_expiration_short_circuit.2 "" "pw" "uid" today0 respExpired
      respGen respConfirm [] "rid123" (.node "AccessToken" (some "NEWTOK") [])
      (by decide) (by decide) (by decide)
      (Or.inr ⟨.node "ExpirationDate" (some "2018-01-02") [], "2018-01-02",
        ⟨2018, 1, 2⟩, rfl, rfl, by decide, by decide⟩)
      (by decide) rfl

/-- C4: a client constructed with an explicit non-empty access token serves
the token with no network traffic and returns exactly the supplied token,
and the password-credential attributes are never even stored, so the explicit
token takes precedence over any supplied (userId, password). -/
theorem claim4_explicit_token_bypass
    (account tok password user_id : String) (htok : tok ≠ "")
    (today : PyDate) (net : Net) :
    (Reporter.init account tok password user_id).access_token today net =
      ((Reporter.init account tok password user_id, net), .ok (some tok))
    ∧ (Reporter.init account tok password user_id).user_id = none
    ∧ (Reporter.init account tok password user_id).password = none := by
  have hb : (tok != "") = true := by simpa using htok
  refine ⟨?_, ?_, ?_⟩
  · rw [Reporter.access_token]
    have ht : truthyStr (Reporter.init account tok password user_id)._access_token = true := by
      simp [Reporter.init, hb, truthyStr, htok]
    rw [ht]
    simp [Reporter.init, hb]
  · simp [Reporter.init, hb]
  · simp [Reporter.init, hb]

/-- Witness for claim4_explicit_token_bypass at a concrete token with a
pending (ignored) credential pair. -/
theorem claim4_witness :
    (Reporter.init "654321" "TOK" "pw" "uid").access_token today0
        (Net.mk [respNoToken] []) =
      ((Reporter.init "654321" "TOK" "pw" "uid", Net.mk [respNoToken] []),
        .ok (some "TOK"))
    ∧ (Reporter.init "654321" "TOK" "pw" "uid").user_id = none
    ∧ (Reporter.init "654321" "TOK" "pw" "uid").password = none :=
  claim4_explicit_token_bypass "654321" "TOK" "pw" "uid" (by decide) today0
    (Net.mk [respNoToken] [])

/-- Category name with only its first letter capitalized, as the spec words
the command grammar. -/
def capFirstSpec (s : String) : String :=
  match s.data with
  | [] => ""
  | c :: cs => String.mk (c.toUpper :: cs)

/-- C5: the emitted command string is the literal prefix
[p=Reporter.properties, followed by a space, then the account segment
a=account followed by a space exactly when an account is configured, then the
capitalized category, a dot, the operation, and the closing bracket.  The
hypothesis pins the category's tail to lowercase letters (true of both
categories, sales and finance); str.capitalize lowercases the tail, so on
such categories it agrees with capitalizing the first letter. -/
theorem claim5_command_string_grammar
    (account category operation : String)
    (h : ∀ c ∈ category.data.tail, c.toLower = c) :
    build_command account category operation =
      "[p=Reporter.properties, " ++
        (if account != "" then "a=" ++ account ++ " " else "") ++
        capFirstSpec category ++ "." ++ operation ++ "]" := by
  have hcap : pyCapitalize category = capFirstSpec category := by
    rw [pyCapitalize, capFirstSpec]
    cases hd : category.data with
    | nil => rfl
    | cons c cs =>
      have h2 : ∀ x ∈ cs, Char.toLower x = id x := by
        intro x hx
        apply h
        rw [hd]
        exact hx
      dsimp only
      rw [List.map_congr_left h2, List.map_id]
  have hassoc : ∀ X : String, "[p=Reporter.properties, " ++ ("a=" ++ X) =
      "[p=Reporter.properties, a=" ++ X := by
    intro X
    rw [← String.append_assoc]
    rfl
  rw [build_command, hcap]
  by_cases ha : (account != "") = true
  · rw [if_pos ha, if_pos ha]
    simp only [String.append_assoc]
    rw [hassoc]
  · rw [if_neg ha, if_neg ha]
    simp

/-- Witness for claim5_command_string_grammar at the configured-account
request of the test suite. -/
theorem claim5_witness :
    build_command "654321" "sales" "getVendors" =
      "[p=Reporter.properties, " ++
        (if "654321" != "" then "a=" ++ "654321" ++ " " else "") ++
        capFirstSpec "sales" ++ "." ++ "getVendors" ++ "]" :=
  claim5_command_string_grammar "654321" "sales" "getVendors" (by decide)

/-- C10: make_request never writes the instance: whether the call returns a
response or raises, the account, the cached access token, the cached vendor
list and the cached vendor/region map are unchanged. -/
theorem claim10_make_request_frame
    (r : Reporter) (cmd_type command : String)
    (credentials extra_params : List (String × Option String)) (net : Net) :
    ((r.make_request cmd_type command credentials extra_params
        net).1.1).account = r.account
    ∧ ((r.make_request cmd_type command credentials extra_params
        net).1.1)._access_token = r._access_token
    ∧ ((r.make_request cmd_type command credentials extra_params
        net).1.1)._vendors = r._vendors
    ∧ ((r.make_request cmd_type command credentials extra_params
        net).1.1)._vendors_regions = r._vendors_regions := by
  rw [Reporter.make_request]
  rcases net with ⟨script, log⟩
  cases script with
  | nil => exact ⟨rfl, rfl, rfl, rfl⟩
  | cons resp rest =>
    dsimp only
    cases raise_for_status resp with
    | ok u => exact ⟨rfl, rfl, rfl, rfl⟩
    | error e => exact ⟨rfl, rfl, rfl, rfl⟩

lemma make_request_log (r : Reporter) (ct cm : String)
    (cr ex : List (String × Option String)) (net : Net) :
    ((r.make_request ct cm cr ex net).1.2).log =
      net.log ++ [build_request r ct cm cr ex] := by
  rw [Reporter.make_request]
  rcases net with ⟨script, log⟩
  cases script with
  | nil => rfl
  | cons resp rest =>
    dsimp only
    cases raise_for_status resp with
    | ok u => rfl
    | error e => rfl

lemma generate_confirm_log (r : Reporter)
    (creds : List (String × Option String)) (net : Net) :
    ∃ tl, ((generate_confirm r creds net).1.2).log = net.log ++ tl := by
  have h1 := make_request_log r "sales" "generateToken" creds [] net
  rw [generate_confirm]
  split
  case _ r1 net1 e heq =>
    rw [heq] at h1
    exact ⟨_, h1⟩
  case _ r1 net1 resp2 heq =>
    rw [heq] at h1
    have h2 := make_request_log r1 "sales" "generateToken" creds
      [("isExistingToken", some "Y"),
       ("requestId", some ((headerGet resp2.headers
         "service_request_id").getD ""))] net1
    split
    · exact ⟨_, h1⟩
    case _ srid hhdr =>
      dsimp only
      split
      case _ ra neta e heq2 =>
        have h3 := make_request_log r1 "sales" "generateToken" creds
          [("isExistingToken", some "Y"), ("requestId", some srid)] net1
        rw [heq2] at h3
        dsimp only at h3
        rw [h3, h1, List.append_assoc]
        exact ⟨_, rfl⟩
      case _ ra neta resp3 heq2 =>
        have h3 := make_request_log r1 "sales" "generateToken" creds
          [("isExistingToken", some "Y"), ("requestId", some srid)] net1
        rw [heq2] at h3
        dsimp only at h3
        split
        · rw [h3, h1, List.append_assoc]
          exact ⟨_, rfl⟩
        · rw [h3, h1, List.append_assoc]
          exact ⟨_, rfl⟩

lemma obtain_log_shape (r : Reporter) (uid pw : String) (today : PyDate)
    (net : Net) (hu : r.user_id = some uid) (hp : r.password = some pw) :
    ∃ tl, ((r.obtain_access_token today net).1.2).log =
      net.log ++ [viewReq r uid pw] ++ tl := by
  have h1 := make_request_log r "sales" "viewToken"
    [("userid", some uid), ("password", some pw)] [] net
  rw [Reporter.obtain_access_token, hu, hp]
  dsimp only
  split
  case _ r1 net1 e heq =>
    rw [heq] at h1
    exact ⟨[], by simpa [viewReq, tokenCreds] using h1⟩
  case _ r1 net1 resp heq =>
    rw [heq] at h1
    dsimp only at h1
    have hgc := generate_confirm_log r1
      [("userid", some uid), ("password", some pw)] net1
    rcases hgc with ⟨tl, htl⟩
    split
    case _ elem hel =>
      split
      · exact ⟨[], by simpa [viewReq, tokenCreds] using h1⟩
      case _ txt htxt =>
        split
        · exact ⟨[], by simpa [viewReq, tokenCreds] using h1⟩
        case _ d hd =>
          split
          · split
            · exact ⟨[], by simpa [viewReq, tokenCreds] using h1⟩
            · exact ⟨[], by simpa [viewReq, tokenCreds] using h1⟩
          · refine ⟨tl, ?_⟩
            rw [htl, h1]
            simp [viewReq, tokenCreds]
    case _ hel =>
      refine ⟨tl, ?_⟩
      rw [htl, h1]
      simp [viewReq, tokenCreds]

/-- C9 counterexample: a client constructed with neither an access token nor
credentials raises no configuration error at all; obtaining the access token
runs the token derivation, whose logged requests are the viewToken and
generateToken requests built from empty userid and password form fields
(tokenCreds "" ""), so a network request with empty credentials is issued
rather than any ConfigurationError (the code defines no such error). -/
theorem claim9_counterexample :
    ((((Reporter.init "" "" "" "").access_token today0
        (Net.mk [respNoToken] [])).1.2).log) =
      [viewReq (Reporter.init "" "" "" "") "" "",
       genReq (Reporter.init "" "" "" "") "" ""] := rfl

/-- C9 amended: invoking the token-requiring operation on a client
constructed with neither an access token nor (userId, password) credentials
does not raise a ConfigurationError (no such error exists in the code); it
issues the viewToken network request with empty userid and password form
fields, whatever the network replies. -/
theorem claim9_amended_empty_credentials_request (today : PyDate)
    (script : List HttpResponse) :
    ((((Reporter.init "" "" "" "").access_token today
        (Net.mk script [])).1.2).log).head? =
      some (viewReq (Reporter.init "" "" "" "") "" "") := by
  rw [Reporter.access_token]
  have htr : truthyStr (Reporter.init "" "" "" "")._access_token = false :=
    rfl
  rw [htr]
  simp only [Bool.false_eq_true, if_false]
  rcases hob : (Reporter.init "" "" "" "").obtain_access_token today
      (Net.mk script []) with ⟨⟨r1, net1⟩, res⟩
  have hshape := obtain_log_shape (Reporter.init "" "" "" "") "" "" today
    (Net.mk script []) rfl rfl
  rw [hob] at hshape
  dsimp only at hshape
  rcases hshape with ⟨tl, htl⟩
  cases res with
  | ok t =>
    dsimp only
    rw [htl]
    rfl
  | error e =>
    dsimp only
    rw [htl]
    rfl

lemma make_request_fst (r : Reporter) (ct cm : String)
    (cr ex : List (String × Option String)) (net : Net) :
    (r.make_request ct cm cr ex net).1.1 = r := by
  rw [Reporter.make_request]
  rcases net with ⟨script, log⟩
  cases script with
  | nil => rfl
  | cons resp rest =>
    dsimp only
    cases raise_for_status resp with
    | ok u => rfl
    | error e => rfl

lemma generate_confirm_fst (r : Reporter)
    (creds : List (String × Option String)) (net : Net) :
    (generate_confirm r creds net).1.1 = r := by
  have h1 := make_request_fst r "sales" "generateToken" creds [] net
  rw [generate_confirm]
  split
  case _ r1 net1 e heq =>
    rw [heq] at h1
    exact h1
  case _ r1 net1 resp2 heq =>
    rw [heq] at h1
    dsimp only at h1
    split
    · exact h1
    case _ srid hhdr =>
      dsimp only
      split
      case _ ra neta e heq2 =>
        have h2 := make_request_fst r1 "sales" "generateToken" creds
          [("isExistingToken", some "Y"), ("requestId", some srid)] net1
        rw [heq2] at h2
        dsimp only at h2
        rw [h2, h1]
      case _ ra neta resp3 heq2 =>
        have h2 := make_request_fst r1 "sales" "generateToken" creds
          [("isExistingToken", some "Y"), ("requestId", some srid)] net1
        rw [heq2] at h2
        dsimp only at h2
        split
        · rw [h2, h1]
        · rw [h2, h1]

lemma obtain_fst (r : Reporter) (today : PyDate) (net : Net) :
    (r.obtain_access_token today net).1.1 = r := by
  rw [Reporter.obtain_access_token]
  split
  case _ o1 o2 uid pw hu hp =>
    dsimp only
    have h1 := make_request_fst r "sales" "viewToken"
      [("userid", some uid), ("password", some pw)] [] net
    split
    case _ r1 net1 e heq =>
      rw [heq] at h1
      exact h1
    case _ r1 net1 resp heq =>
      rw [heq] at h1
      dsimp only at h1
      have hgc := generate_confirm_fst r1
        [("userid", some uid), ("password", some pw)] net1
      split
      case _ elem hel =>
        split
        · exact h1
        case _ txt htxt =>
          split
          · exact h1
          case _ d hd =>
            split
            · split
              · exact h1
              · exact h1
            · rw [hgc, h1]
      case _ hel =>
        rw [hgc, h1]
  case _ o1 o2 h =>
    rfl

lemma access_token_caches_only (r : Reporter) (today : PyDate) (net : Net) :
    ((r.access_token today net).1.1)._vendors = r._vendors
    ∧ ((r.access_token today net).1.1)._vendors_regions =
        r._vendors_regions := by
  rw [Reporter.access_token]
  split
  · exact ⟨rfl, rfl⟩
  · have hf := obtain_fst r today net
    split
    case _ r1 net1 t heq =>
      rw [heq] at hf
      dsimp only at hf
      rw [hf]
      exact ⟨rfl, rfl⟩
    case _ r1 net1 e heq =>
      rw [heq] at hf
      dsimp only at hf
      rw [hf]
      exact ⟨rfl, rfl⟩

/-- Fixture: a 304 Not Modified response, a non-2xx status outside the range
raise_for_status treats as an error. -/
def resp304 : HttpResponse := ⟨304, [], .node "X" none []⟩

/-- Fixture: a 500 server error response. -/
def resp500 : HttpResponse := ⟨500, [], .node "Error" none []⟩

/-- C3 counterexample: first, a 304 response is non-2xx yet make_request
returns it without raising, because raise_for_status only raises for
4xx/5xx; second, a vendors call that fails with a 500 on its getVendors
request has already populated the caller-visible access-token cache with the
token derived by its first request, so a failed operation can leave
caller-visible cached state behind. -/
theorem claim3_counterexample :
    ((Reporter.init "" "TOK" "" "").make_request "sales" "getVendors"
        [("accesstoken", some "TOK")] [] (Net.mk [resp304] [])).2 =
      .ok resp304
    ∧ ((Reporter.init "" "" "pw" "uid").vendors today0
        (Net.mk [respFresh, resp500] [])).2 = .error (.httpError 500)
    ∧ (((Reporter.init "" "" "pw" "uid").vendors today0
        (Net.mk [respFresh, resp500] [])).1.1)._access_token =
      some "FRESH" := ⟨rfl, rfl, rfl⟩

/-- C3 amended: a 4xx or 5xx response on any request raises HTTPError,
propagated to the caller after consuming exactly one scripted response and
logging exactly one request (no retry); statuses outside [400, 600),
including non-2xx ones such as 304, do not raise.  A failing token
derivation populates no cached state at all, and a failing vendor-list or
vendor/region fetch leaves its own cache slot unpopulated, though the
access-token slot may already have been filled by the successful token
derivation inside the same failed operation. -/
theorem claim3_amended_http_error_handling :
    (∀ (r : Reporter) (ct cm : String)
      (cr ex : List (String × Option String)) (resp : HttpResponse)
      (rest : List HttpResponse) (log : List HttpRequest),
      400 ≤ resp.status → resp.status < 600 →
      r.make_request ct cm cr ex (Net.mk (resp :: rest) log) =
        ((r, Net.mk rest (log ++ [build_request r ct cm cr ex])),
          .error (.httpError resp.status)))
    ∧ (∀ (r : Reporter) (ct cm : String)
      (cr ex : List (String × Option String)) (resp : HttpResponse)
      (rest : List HttpResponse) (log : List HttpRequest),
      ¬(400 ≤ resp.status ∧ resp.status < 600) →
      (r.make_request ct cm cr ex (Net.mk (resp :: rest) log)).2 =
        .ok resp)
    ∧ (∀ (r : Reporter) (today : PyDate) (net : Net) (e : PyErr),
      (r.obtain_access_token today net).2 = .error e →
      (r.access_token today net).1.1 = r ∧
        (r.access_token today net).2 = .error e ∨
        truthyStr r._access_token = true)
    ∧ (∀ (r : Reporter) (today : PyDate) (net : Net) (e : PyErr),
      (r.obtain_vendor_list today net).2 = .error e →
      ((r.vendors today net).1.1)._vendors = r._vendors ∧
        (r.vendors today net).2 = .error e ∨
        truthyList r._vendors = true)
    ∧ (∀ (r : Reporter) (today : PyDate) (net : Net) (e : PyErr),
      (r.obtain_vendor_regions today net).2 = .error e →
      ((r.vendors_and_regions today net).1.1)._vendors_regions =
          r._vendors_regions ∧
        (r.vendors_and_regions today net).2 = .error e ∨
        truthyList r._vendors_regions = true) := by
  refine ⟨?_, ?_, ?_, ?_, ?_⟩
  · intro r ct cm cr ex resp rest log h1 h2
    exact make_request_err r ct cm cr ex resp rest log h1 h2
  · intro r ct cm cr ex resp rest log h
    rw [make_request_ok r ct cm cr ex resp rest log h]
  · intro r today net e he
    by_cases ht : truthyStr r._access_token = true
    · exact Or.inr ht
    · left
      rw [Reporter.access_token]
      rw [eq_false_of_ne_true ht]
      simp only [Bool.false_eq_true, if_false]
      have hf := obtain_fst r today net
      rcases hob : r.obtain_access_token today net with ⟨⟨r1, net1⟩, res⟩
      rw [hob] at he hf
      dsimp only at he hf
      cases res with
      | ok t => exact absurd he (by simp)
      | error e1 =>
        cases he
        rw [hf]
        exact ⟨rfl, rfl⟩
  · intro r today net e he
    by_cases ht : truthyList r._vendors = true
    · exact Or.inr ht
    · left
      rw [Reporter.vendors]
      rw [eq_false_of_ne_true ht]
      simp only [Bool.false_eq_true, if_false]
      rcases hob : r.obtain_vendor_list today net with ⟨⟨r1, net1⟩, res⟩
      rw [hob] at he
      dsimp only at he
      cases res with
      | ok t => exact absurd he (by simp)
      | error e1 =>
        cases he
        have hv : r1._vendors = r._vendors := by
          have := access_token_caches_only r today net
          rw [Reporter.obtain_vendor_list] at hob
          revert hob
          split
          case _ ra neta e2 heq =>
            intro hob
            cases hob
            rw [heq] at this
            exact this.1
          case _ ra neta tok heq =>
            intro hob
            have hra : ra._vendors = r._vendors := by
              rw [heq] at this
              exact this.1
            have hmf := make_request_fst ra "sales" "getVendors"
              [("accesstoken", tok)] [] neta
            revert hob
            dsimp only
            split
            case _ rb netb e3 heq2 =>
              intro hob
              cases hob
              rw [heq2] at hmf
              dsimp only at hmf
              rw [hmf]
              exact hra
            case _ rb netb respb heq2 =>
              intro hob
              cases hob
        rw [hv]
        exact ⟨rfl, rfl⟩
  · intro r today net e he
    by_cases ht : truthyList r._vendors_regions = true
    · exact Or.inr ht
    · left
      rw [Reporter.vendors_and_regions]
      rw [eq_false_of_ne_true ht]
      simp only [Bool.false_eq_true, if_false]
      rcases hob : r.obtain_vendor_regions today net with ⟨⟨r1, net1⟩, res⟩
      rw [hob] at he
      dsimp only at he
      cases res with
      | ok t => exact absurd he (by simp)
      | error e1 =>
        cases he
        have hv : r1._vendors_regions = r._vendors_regions := by
          have := access_token_caches_only r today net
          rw [Reporter.obtain_vendor_regions] at hob
          revert hob
          split
          case _ ra neta e2 heq =>
            intro hob
            cases hob
            rw [heq] at this
            exact this.2
          case _ ra neta tok heq =>
            intro hob
            have hra : ra._vendors_regions = r._vendors_regions := by
              rw [heq] at this
              exact this.2
            have hmf := make_request_fst ra "finance" "getVendorsAndRegions"
              [("accesstoken", tok)] [] neta
            revert hob
            dsimp only
            split
            case _ rb netb e3 heq2 =>
              intro hob
              cases hob
              rw [heq2] at hmf
              dsimp only at hmf
              rw [hmf]
              exact hra
            case _ rb netb respb heq2 =>
              intro hob
              revert hob
              split
              · intro hob
                cases hob
              · intro hob
                cases hob
                rw [heq2] at hmf
                dsimp only at hmf
                rw [hmf]
                exact hra
        rw [hv]
        exact ⟨rfl, rfl⟩

/-- Witness for claim3_amended_http_error_handling: a 500 raises and a 304
does not; a failing derivation, vendor fetch and region fetch each leave
their cache slot unchanged while propagating the 500. -/
theorem claim3_witness :
    ((Reporter.init "" "TOK" "" "").make_request "sales" "getVendors"
        [("accesstoken", some "TOK")] [] (Net.mk [resp500] []) =
      ((Reporter.init "" "TOK" "" "",
        Net.mk [] ([] ++ [build_request (Reporter.init "" "TOK" "" "")
          "sales" "getVendors" [("accesstoken", some "TOK")] []])),
        .error (.httpError resp500.status)))
    ∧ (((Reporter.init "" "TOK" "" "").make_request "sales" "getVendors"
        [("accesstoken", some "TOK")] [] (Net.mk [resp304] [])).2 =
      .ok resp304)
    ∧ (((Reporter.init "" "" "pw" "uid").access_token today0
          (Net.mk [resp500] [])).1.1 = Reporter.init "" "" "pw" "uid" ∧
        ((Reporter.init "" "" "pw" "uid").access_token today0
          (Net.mk [resp500] [])).2 = .error (.httpError 500) ∨
        truthyStr (Reporter.init "" "" "pw" "uid")._access_token = true)
    ∧ ((((Reporter.init "" "TOK" "" "").vendors today0
          (Net.mk [resp500] [])).1.1)._vendors =
            (Reporter.init "" "TOK" "" "")._vendors ∧
        ((Reporter.init "" "TOK" "" "").vendors today0
          (Net.mk [resp500] [])).2 = .error (.httpError 500) ∨
        truthyList (Reporter.init "" "TOK" "" "")._vendors = true)
    ∧ ((((Reporter.init "" "TOK" "" "").vendors_and_regions today0
          (Net.mk [resp500] [])).1.1)._vendors_regions =
            (Reporter.init "" "TOK" "" "")._vendors_regions ∧
        ((Reporter.init "" "TOK" "" "").vendors_and_regions today0
          (Net.mk [resp500] [])).2 = .error (.httpError 500) ∨
        truthyList (Reporter.init "" "TOK" "" "")._vendors_regions = true) :=
  ⟨claim3_amended_http_error_handling.1 _ _ _ _ _ _ _ _ (by decide)
      (by decide),
   claim3_amended_http_error_handling.2.1 _ _ _ _ _ _ _ _ (by decide),
   claim3_amended_http_error_handling.2.2.1 _ _ _ _ rfl,
   claim3_amended_http_error_handling.2.2.2.1 _ _ _ _ rfl,
   claim3_amended_http_error_handling.2.2.2.2 _ _ _ _ rfl⟩

/-- Fixture: getVendors response with no Vendor children. -/
def respVendorsEmpty : HttpResponse := ⟨200, [], .node "Vendors" none []⟩

/-- Fixture: getVendors response with two Vendor leaf elements. -/
def respVendorsTwo : HttpResponse :=
  ⟨200, [], .node "Vendors" none
    [.node "Vendor" (some "80012345") [],
     .node "Vendor" (some "80067891") []]⟩

/-- C8 counterexample: with zero Vendor elements the first vendors access
succeeds with the empty list, but the stored empty list is falsy, so a second
access issues the network call again (two logged requests in total) instead
of returning the cached sequence with no further call. -/
theorem claim8_counterexample :
    ((Reporter.init "" "TOK" "" "").vendors today0
        (Net.mk [respVendorsEmpty, respVendorsEmpty] [])).2 = .ok []
    ∧ ((((Reporter.init "" "TOK" "" "").vendors today0
        (Net.mk [respVendorsEmpty, respVendorsEmpty] [])).1.1).vendors today0
        (((Reporter.init "" "TOK" "" "").vendors today0
        (Net.mk [respVendorsEmpty, respVendorsEmpty] [])).1.2)).1.2.log.length
      = 2 := ⟨rfl, rfl⟩

/-- C8 amended: the vendor-list operation decodes an XML document with N
Vendor leaf elements into exactly N strings in document order and stores the
result, for every N including zero; the stored result is reused with no
further network call only when N is at least one, because the empty list is
falsy under the cache check, so with N = 0 every subsequent access re-issues
the network call. -/
theorem claim8_amended_vendor_list_cache :
    (∀ (r : Reporter) (today : PyDate) (resp : HttpResponse)
      (texts : List String),
      truthyStr r._access_token = true →
      truthyList r._vendors = false →
      ¬(400 ≤ resp.status ∧ resp.status < 600) →
      resp.xml.children.map XmlElem.text = texts.map some →
      r.vendors today (Net.mk [resp] []) =
        (({ r with _vendors := some (texts.map some) },
          Net.mk [] ([] ++ [build_request r "sales" "getVendors"
            [("accesstoken", r._access_token)] []])),
          .ok (texts.map some))
      ∧ (texts.map some).length = resp.xml.children.length)
    ∧ (∀ (r : Reporter) (today : PyDate) (net : Net)
      (l : List (Option String)),
      r._vendors = some l → l ≠ [] →
      r.vendors today net = ((r, net), .ok l)) := by
  constructor
  · intro r today resp texts htok hvf hst hm
    constructor
    · rw [Reporter.vendors, hvf]
      simp only [Bool.false_eq_true, if_false]
      rw [Reporter.obtain_vendor_list, Reporter.access_token, htok]
      simp only [if_true]
      try dsimp only
      rw [make_request_ok r _ _ _ _ _ _ _ hst]
      dsimp only
      rw [hm]
    · rw [← hm]
      simp
  · intro r today net l hv hl
    rw [Reporter.vendors]
    have ht : truthyList r._vendors = true := by
      rw [hv]
      simp [truthyList, hl]
    rw [ht]
    simp only [if_true]
    rw [hv]
    rfl

/-- Witness for claim8_amended_vendor_list_cache: a two-vendor response is
decoded, stored and then served from the cache without network traffic. -/
theorem claim8_witness :
    ((Reporter.init "" "TOK" "" "").vendors today0
        (Net.mk [respVendorsTwo] []) =
      (({ Reporter.init "" "TOK" "" "" with
          _vendors := some (["80012345", "80067891"].map some) },
        Net.mk [] ([] ++ [build_request (Reporter.init "" "TOK" "" "")
          "sales" "getVendors"
          [("accesstoken", (Reporter.init "" "TOK" "" "")._access_token)]
          []])),
        .ok (["80012345", "80067891"].map some))
      ∧ (["80012345", "80067891"].map some).length =
          respVendorsTwo.xml.children.length)
    ∧ ({ Reporter.init "" "TOK" "" "" with
          _vendors := some [some "80012345"] }.vendors today0
        (Net.mk [] []) =
      (({ Reporter.init "" "TOK" "" "" with
          _vendors := some [some "80012345"] }, Net.mk [] []),
        .ok [some "80012345"])) :=
  ⟨claim8_amended_vendor_list_cache.1 (Reporter.init "" "TOK" "" "") today0
      respVendorsTwo ["80012345", "80067891"] rfl rfl (by decide) rfl,
   claim8_amended_vendor_list_cache.2 _ today0 (Net.mk [] [])
      [some "80012345"] rfl (by decide)⟩

/-- Placeholder element used only as the default of getD in the spec-side
characterization; the wellformedness hypotheses keep it from being reached. -/
def emptyElem : XmlElem := .node "" none []

/-- Spec-side reading of one region: the first child's text is the code and
the texts of the second child's children are the reports. -/
def specRegion (rg : XmlElem) : RegionVal :=
  { code := (rg.children.getD 0 emptyElem).text,
    reports := (rg.children.getD 1 emptyElem).children.map XmlElem.text }

/-- Spec-side reading of a vendor's regions: exactly the children tagged
Region, in document order, each read by specRegion. -/
def specRegions (v : XmlElem) : List RegionVal :=
  (v.children.filter (fun c => c.tag == "Region")).map specRegion

/-- Key of a vendor entry: the first child's text. -/
def vendorKey (v : XmlElem) : Option String :=
  (v.children.getD 0 emptyElem).text

/-- Spec-side reading of the whole document: one entry per vendor child, in
document order, keyed by the vendor's first-child text. -/
def specVendorMap (root : XmlElem) : List (Option String × VendorEntry) :=
  root.children.map (fun v =>
    (vendorKey v, { id := vendorKey v, regions := specRegions v }))

lemma process_regions_go_spec (l : List XmlElem)
    (h : ∀ rg ∈ l, (rg.tag == "Region") = true → 2 ≤ rg.children.length) :
    process_regions_go l =
      .ok ((l.filter (fun c => c.tag == "Region")).map specRegion) := by
  induction l with
  | nil => rfl
  | cons rg tl ih =>
    have htl : process_regions_go tl =
        .ok ((tl.filter (fun c => c.tag == "Region")).map specRegion) :=
      ih (fun x hx => h x (by simp [hx]))
    by_cases hr : (rg.tag == "Region") = true
    · have hlen := h rg (by simp) hr
      rcases hch : rg.children with _ | ⟨c0, cs⟩
      · rw [hch] at hlen
        simp at hlen
      · rcases hcs : cs with _ | ⟨c1, cs2⟩
        · rw [hch, hcs] at hlen
          simp at hlen
        · subst hcs
          simp only [process_regions_go, hr, if_true, hch, htl]
          simp only [List.filter_cons, hr, List.map_cons]
          simp [specRegion, hch, List.getD]
    · have hrf : (rg.tag == "Region") = false := by
        rw [Bool.eq_false_iff]
        exact hr
      simp [process_regions_go, hrf, List.filter_cons, htl]

lemma dictSet_fresh {K V : Type} [BEq K] (d : List (K × V)) (k : K) (v : V)
    (h : ∀ p ∈ d, (p.1 == k) = false) :
    dictSet d k v = d ++ [(k, v)] := by
  rw [dictSet]
  have ha : d.any (fun p => p.1 == k) = false := by
    rw [List.any_eq_false]
    intro p hp
    simp [h p hp]
  rw [ha]
  simp

lemma decode_go_spec (l : List XmlElem)
    (acc : List (Option String × VendorEntry))
    (hne : ∀ v ∈ l, v.children.isEmpty = false)
    (hreg : ∀ v ∈ l, ∀ rg ∈ v.children,
      (rg.tag == "Region") = true → 2 ≤ rg.children.length)
    (hfresh : ∀ p ∈ acc, ∀ v ∈ l, (p.1 == vendorKey v) = false)
    (hnd : List.Pairwise
      (fun a b => (vendorKey a == vendorKey b) = false) l) :
    decode_vendor_regions_go l acc =
      .ok (acc ++ l.map (fun v =>
        (vendorKey v, { id := vendorKey v, regions := specRegions v }))) := by
  induction l generalizing acc with
  | nil => simp [decode_vendor_regions_go]
  | cons v tl ih =>
    have hv0 := hne v (by simp)
    rcases hch : v.children with _ | ⟨c0, cs⟩
    · rw [hch] at hv0
      simp at hv0
    · have hkey : vendorKey v = c0.text := by
        rw [vendorKey, hch]
        rfl
      have hpr : process_regions v = .ok (specRegions v) := by
        rw [process_regions, specRegions,
          process_regions_go_spec _ (fun rg hrg => hreg v (by simp) rg hrg)]
      simp only [decode_vendor_regions_go, hch]
      try dsimp only
      try rw [show (c0 :: cs).get? 0 = some c0 from rfl]
      try dsimp only
      rw [hpr]
      try dsimp only
      rw [dictSet_fresh _ _ _
        (fun p hp => by
          have := hfresh p hp v (by simp)
          rw [hkey] at this
          exact this)]
      have hfr : ∀ p ∈ acc ++ [((c0.text : Option String),
          ({ id := c0.text, regions := specRegions v } : VendorEntry))],
          ∀ v2 ∈ tl, (p.1 == vendorKey v2) = false := by
        intro p hp v2 hv2
        rcases List.mem_append.mp hp with hp1 | hp2
        · exact hfresh p hp1 v2 (by simp [hv2])
        · have hpv : p = (c0.text,
              { id := c0.text, regions := specRegions v }) := by
            simpa using hp2
          have hnd1 := (List.pairwise_cons.mp hnd).1 v2 hv2
          rw [hpv]
          rw [hkey] at hnd1
          exact hnd1
      have hih := ih (acc ++ [((c0.text : Option String),
          ({ id := c0.text, regions := specRegions v } : VendorEntry))])
        (fun x hx => hne x (by simp [hx]))
        (fun x hx rg hrg hr => hreg x (by simp [hx]) rg hrg hr)
        hfr (List.pairwise_cons.mp hnd).2
      rw [hih, ← hkey]
      simp

/-- C7: for every wellformed vendor/region document (each vendor child has at
least one child, each Region grandchild has at least two children, vendor
keys are pairwise distinct), the decoder produces the mapping keyed by each
vendor's first-child text whose entries list, in document order, exactly the
children tagged Region, with each region's code its first child's text and
its reports the texts of its second child's children in document order;
non-Region siblings are ignored. -/
theorem claim7_vendor_region_decoder (root : XmlElem)
    (hne : ∀ v ∈ root.children, v.children.isEmpty = false)
    (hreg : ∀ v ∈ root.children, ∀ rg ∈ v.children,
      (rg.tag == "Region") = true → 2 ≤ rg.children.length)
    (hnd : List.Pairwise
      (fun a b => (vendorKey a == vendorKey b) = false) root.children) :
    decode_vendor_regions root = .ok (specVendorMap root) := by
  rw [decode_vendor_regions, specVendorMap,
    decode_go_spec root.children [] hne hreg (by simp) hnd]
  rfl

/-- Fixture region element, as in the repository's vendors-and-regions test
fixture. -/
def fixRegion (c : String) : XmlElem :=
  .node "Region" none
    [.node "Code" (some c) [],
     .node "Reports" none [.node "Report" (some "Financial") []]]

/-- Fixture vendors-and-regions document from the repository's test suite:
one vendor with regions US and JP, one with region US. -/
def fixRoot : XmlElem :=
  .node "VendorsAndRegions" none
    [.node "Vendor" none
      [.node "Number" (some "80012345") [], fixRegion "US", fixRegion "JP"],
     .node "Vendor" none
      [.node "Number" (some "80067891") [], fixRegion "US"]]

/-- Witness for claim7_vendor_region_decoder at the test-suite fixture,
together with the explicit value of the decoded mapping there. -/
theorem claim7_witness :
    decode_vendor_regions fixRoot = .ok (specVendorMap fixRoot)
    ∧ specVendorMap fixRoot =
      [(some "80012345",
        { id := some "80012345",
          regions := [{ code := some "US", reports := [some "Financial"] },
                      { code := some "JP",
                        reports := [some "Financial"] }] }),
       (some "80067891",
        { id := some "80067891",
          regions := [{ code := some "US",
                        reports := [some "Financial"] }] })] :=
  ⟨claim7_vendor_region_decoder fixRoot (by decide) (by decide) (by decide),
   by decide⟩

lemma contains_all_false {l : List Char} {x : Char}
    (h : l.contains x = false) : ∀ c ∈ l, (c == x) = false := by
  simp at h
  intro c hc
  rw [Bool.eq_false_iff]
  intro hcx
  exact h (eq_of_beq hcx ▸ hc)

lemma noCRLF_all (f : String) (h : noCRLF f = true) :
    (∀ c ∈ f.data, (c == nlC) = false) ∧
    (∀ c ∈ f.data, (c == crC) = false) := by
  rw [noCRLF, Bool.not_eq_eq_eq_not, Bool.not_true, Bool.or_eq_false_iff]
    at h
  exact ⟨contains_all_false h.1, contains_all_false h.2⟩

lemma csvParse_inField_plain (l : List Char) (cs fld : List Char)
    (row : List String) (rows : List (List String))
    (h : ∀ c ∈ l, (c == nlC) = false ∧ (c == crC) = false ∧
      (c == tabC) = false) :
    csvParse (l ++ cs) .inField fld row rows =
      csvParse cs .inField (fld ++ l) row rows := by
  induction l generalizing fld with
  | nil => simp
  | cons c l2 ih =>
    obtain ⟨h1, h2, h3⟩ := h c (by simp)
    simp only [List.cons_append, csvParse, h1, h2, h3, Bool.false_eq_true,
      if_false]
    have hstep := ih (fld ++ [c]) (fun x hx => h x (by simp [hx]))
    simp only [List.append_eq] at hstep ⊢
    rw [hstep]
    simp

lemma csvParse_quoted_content (l : List Char) (cs fld : List Char)
    (row : List String) (rows : List (List String)) :
    csvParse (doubledQuotes l ++ cs) .inQuoted fld row rows =
      csvParse cs .inQuoted (fld ++ l) row rows := by
  induction l generalizing fld with
  | nil => simp [doubledQuotes]
  | cons c l2 ih =>
    by_cases hc : (c == dqC) = true
    · have hceq : c = dqC := eq_of_beq hc
      subst hceq
      have hdq2 : doubledQuotes (dqC :: l2) = dqC :: dqC :: doubledQuotes l2 := by
        simp [doubledQuotes]
      rw [hdq2]
      have hstep := ih (fld ++ [dqC])
      simp only [List.cons_append, csvParse, beq_self_eq_true, if_true]
      simp only [List.append_eq] at hstep ⊢
      rw [hstep]
      simp
    · have hcf : (c == dqC) = false := by
        rw [Bool.eq_false_iff]
        exact hc
      have hne : c ≠ dqC := by simpa using hc
      have hdq2 : doubledQuotes (c :: l2) = c :: doubledQuotes l2 := by
        simp [doubledQuotes, hne]
      rw [hdq2]
      have hstep := ih (fld ++ [c])
      simp only [List.cons_append, csvParse, hcf, Bool.false_eq_true,
        if_false]
      simp only [List.append_eq] at hstep ⊢
      rw [hstep]
      simp

lemma str_mk_data (s : String) : String.mk s.data = s := rfl

lemma plain_of_unquoted (f : String) (hf : noCRLF f = true)
    (hq : (f.data.contains tabC || f.data.contains dqC) = false) :
    ∀ c ∈ f.data, (c == nlC) = false ∧ (c == crC) = false ∧
      (c == tabC) = false ∧ (c == dqC) = false := by
  obtain ⟨hnl, hcr⟩ := noCRLF_all f hf
  rw [Bool.or_eq_false_iff] at hq
  intro c hc
  exact ⟨hnl c hc, hcr c hc, contains_all_false hq.1 c hc,
    contains_all_false hq.2 c hc⟩

lemma csvParse_startField_quote (cs : List Char) (fld : List Char)
    (row : List String) (rows : List (List String)) :
    csvParse (dqC :: cs) .startField fld row rows =
      csvParse cs .inQuoted fld row rows := rfl

lemma csvParse_startField_tab (cs : List Char) (fld : List Char)
    (row : List String) (rows : List (List String)) :
    csvParse (tabC :: cs) .startField fld row rows =
      csvParse cs .startField fld (row ++ [String.mk fld]) rows := rfl

lemma csvParse_startField_rec (cs : List Char) (fld : List Char)
    (row : List String) (rows : List (List String)) :
    csvParse (crC :: nlC :: cs) .startField fld row rows =
      csvParse cs .startRecord [] [] (rows ++ [row ++ [String.mk fld]]) := rfl

lemma csvParse_startField_plain (c : Char) (cs : List Char)
    (fld : List Char) (row : List String) (rows : List (List String))
    (h1 : (c == nlC) = false) (h2 : (c == crC) = false)
    (h3 : (c == tabC) = false) (h4 : (c == dqC) = false) :
    csvParse (c :: cs) .startField fld row rows =
      csvParse cs .inField (fld ++ [c]) row rows := by
  simp only [csvParse, h1, h2, h3, h4, Bool.false_eq_true, if_false]

lemma csvParse_inField_tab (cs : List Char) (fld : List Char)
    (row : List String) (rows : List (List String)) :
    csvParse (tabC :: cs) .inField fld row rows =
      csvParse cs .startField [] (row ++ [String.mk fld]) rows := rfl

lemma csvParse_inField_rec (cs : List Char) (fld : List Char)
    (row : List String) (rows : List (List String)) :
    csvParse (crC :: nlC :: cs) .inField fld row rows =
      csvParse cs .startRecord [] [] (rows ++ [row ++ [String.mk fld]]) := rfl

lemma csvParse_quote_close_tab (cs : List Char) (fld : List Char)
    (row : List String) (rows : List (List String)) :
    csvParse (dqC :: tabC :: cs) .inQuoted fld row rows =
      csvParse cs .startField [] (row ++ [String.mk fld]) rows := rfl

lemma csvParse_quote_close_rec (cs : List Char) (fld : List Char)
    (row : List String) (rows : List (List String)) :
    csvParse (dqC :: crC :: nlC :: cs) .inQuoted fld row rows =
      csvParse cs .startRecord [] [] (rows ++ [row ++ [String.mk fld]]) := rfl

lemma csvParse_encField_tab (f : String) (cs : List Char) (row : List String)
    (rows : List (List String)) (hf : noCRLF f = true) :
    csvParse ((encodeField f).data ++ tabC :: cs) .startField [] row rows =
      csvParse cs .startField [] (row ++ [f]) rows := by
  rw [encodeField]
  by_cases hq : (f.data.contains tabC || f.data.contains dqC) = true
  · rw [if_pos hq]
    show csvParse (dqC :: ((doubledQuotes f.data ++ [dqC]) ++ tabC :: cs))
      .startField [] row rows = _
    rw [csvParse_startField_quote]
    rw [show (doubledQuotes f.data ++ [dqC]) ++ tabC :: cs =
      doubledQuotes f.data ++ (dqC :: tabC :: cs) from by simp]
    rw [csvParse_quoted_content]
    rw [csvParse_quote_close_tab]
    simp [str_mk_data]
  · have hq2 : (f.data.contains tabC || f.data.contains dqC) = false := by
      rw [Bool.eq_false_iff]
      exact hq
    have hplain := plain_of_unquoted f hf hq2
    rw [if_neg hq]
    cases hfd : f.data with
    | nil =>
      have hfe : f = "" := by
        rw [← str_mk_data f, hfd]
        try rfl
      rw [show ([] : List Char) ++ tabC :: cs = tabC :: cs from rfl]
      rw [csvParse_startField_tab]
      try rw [hfe]
      try rfl
    | cons c l2 =>
      obtain ⟨h1, h2, h3, h4⟩ := hplain c (by rw [hfd]; simp)
      rw [show (c :: l2) ++ tabC :: cs = c :: (l2 ++ tabC :: cs) from rfl]
      rw [csvParse_startField_plain c _ _ _ _ h1 h2 h3 h4]
      have hpl2 : ∀ x ∈ l2, (x == nlC) = false ∧ (x == crC) = false ∧
          (x == tabC) = false := by
        intro x hx
        obtain ⟨a, b, c2, d⟩ := hplain x (by rw [hfd]; simp [hx])
        exact ⟨a, b, c2⟩
      rw [csvParse_inField_plain l2 (tabC :: cs) ([] ++ [c]) row rows hpl2]
      rw [csvParse_inField_tab]
      have hfe : String.mk (([] ++ [c]) ++ l2) = f := by
        rw [← str_mk_data f, hfd]
        rfl
      try rw [hfe]

lemma csvParse_encField_rec (f : String) (cs : List Char) (row : List String)
    (rows : List (List String)) (hf : noCRLF f = true) :
    csvParse ((encodeField f).data ++ crC :: nlC :: cs) .startField [] row
        rows =
      csvParse cs .startRecord [] [] (rows ++ [row ++ [f]]) := by
  rw [encodeField]
  by_cases hq : (f.data.contains tabC || f.data.contains dqC) = true
  · rw [if_pos hq]
    show csvParse (dqC :: ((doubledQuotes f.data ++ [dqC]) ++ crC :: nlC :: cs))
      .startField [] row rows = _
    rw [csvParse_startField_quote]
    rw [show (doubledQuotes f.data ++ [dqC]) ++ crC :: nlC :: cs =
      doubledQuotes f.data ++ (dqC :: crC :: nlC :: cs) from by simp]
    rw [csvParse_quoted_content]
    rw [csvParse_quote_close_rec]
    simp [str_mk_data]
  · have hq2 : (f.data.contains tabC || f.data.contains dqC) = false := by
      rw [Bool.eq_false_iff]
      exact hq
    have hplain := plain_of_unquoted f hf hq2
    rw [if_neg hq]
    cases hfd : f.data with
    | nil =>
      have hfe : f = "" := by
        rw [← str_mk_data f, hfd]
        try rfl
      rw [show ([] : List Char) ++ crC :: nlC :: cs = crC :: nlC :: cs
        from rfl]
      rw [csvParse_startField_rec]
      try rw [hfe]
      try rfl
    | cons c l2 =>
      obtain ⟨h1, h2, h3, h4⟩ := hplain c (by rw [hfd]; simp)
      rw [show (c :: l2) ++ crC :: nlC :: cs = c :: (l2 ++ crC :: nlC :: cs)
        from rfl]
      rw [csvParse_startField_plain c _ _ _ _ h1 h2 h3 h4]
      have hpl2 : ∀ x ∈ l2, (x == nlC) = false ∧ (x == crC) = false ∧
          (x == tabC) = false := by
        intro x hx
        obtain ⟨a, b, c2, d⟩ := hplain x (by rw [hfd]; simp [hx])
        exact ⟨a, b, c2⟩
      rw [csvParse_inField_plain l2 (crC :: nlC :: cs) ([] ++ [c]) row rows
        hpl2]
      rw [csvParse_inField_rec]
      have hfe : String.mk (([] ++ [c]) ++ l2) = f := by
        rw [← str_mk_data f, hfd]
        rfl
      try rw [hfe]

lemma str_data_append (a b : String) : (a ++ b).data = a.data ++ b.data := rfl

lemma tab_data : ("\t" : String).data = [tabC] := by decide

lemma crnl_data : ("\r\n" : String).data = [crC, nlC] := by decide

lemma encodeRow_cons (f g : String) (tl : List String) :
    encodeRow (f :: g :: tl) = encodeField f ++ "\t" ++ encodeRow (g :: tl) :=
  rfl

lemma csvParse_encRow (row : List String) (cs : List Char)
    (racc : List String) (rows : List (List String))
    (hne : row ≠ [])
    (hf : ∀ f ∈ row, noCRLF f = true) :
    csvParse ((encodeRow row).data ++ crC :: nlC :: cs) .startField [] racc
        rows =
      csvParse cs .startRecord [] [] (rows ++ [racc ++ row]) := by
  induction row generalizing racc with
  | nil => exact absurd rfl hne
  | cons f tl ih =>
    cases tl with
    | nil =>
      rw [show encodeRow [f] = encodeField f from rfl]
      rw [csvParse_encField_rec f cs racc rows (hf f (by simp))]
    | cons g tl2 =>
      rw [encodeRow_cons]
      rw [show (encodeField f ++ "\t" ++ encodeRow (g :: tl2)).data =
        (encodeField f).data ++ tabC :: (encodeRow (g :: tl2)).data from by
          rw [str_data_append, str_data_append, tab_data]
          simp]
      rw [show ((encodeField f).data ++ tabC :: (encodeRow (g :: tl2)).data)
          ++ crC :: nlC :: cs =
        (encodeField f).data ++ tabC ::
          ((encodeRow (g :: tl2)).data ++ crC :: nlC :: cs) from by simp]
      rw [csvParse_encField_tab f _ racc rows (hf f (by simp))]
      rw [ih (racc ++ [f]) (by simp) (fun x hx => hf x (by simp [hx]))]
      simp

lemma encodeField_head_safe (f : String) (hf : noCRLF f = true)
    (hne : f ≠ "") :
    ∃ c cs, (encodeField f).data = c :: cs ∧ (c == nlC) = false ∧
      (c == crC) = false := by
  rw [encodeField]
  by_cases hq : (f.data.contains tabC || f.data.contains dqC) = true
  · rw [if_pos hq]
    exact ⟨dqC, doubledQuotes f.data ++ [dqC], rfl, by decide, by decide⟩
  · have hq2 : (f.data.contains tabC || f.data.contains dqC) = false := by
      rw [Bool.eq_false_iff]
      exact hq
    have hplain := plain_of_unquoted f hf hq2
    rw [if_neg hq]
    cases hfd : f.data with
    | nil =>
      have : f = "" := by
        rw [← str_mk_data f, hfd]
        try rfl
      exact absurd this hne
    | cons c l2 =>
      obtain ⟨h1, h2, h3, h4⟩ := hplain c (by rw [hfd]; simp)
      exact ⟨c, l2, rfl, h1, h2⟩

lemma encodeRow_head_safe (row : List String) (hne : row ≠ [])
    (hne2 : row ≠ [""]) (hf : ∀ f ∈ row, noCRLF f = true) :
    ∃ c cs, (encodeRow row).data = c :: cs ∧ (c == nlC) = false ∧
      (c == crC) = false := by
  cases row with
  | nil => exact absurd rfl hne
  | cons f tl =>
    cases tl with
    | nil =>
      have hfe : f ≠ "" := fun h => hne2 (by rw [h])
      obtain ⟨c, cs, h, h1, h2⟩ :=
        encodeField_head_safe f (hf f (by simp)) hfe
      exact ⟨c, cs, h, h1, h2⟩
    | cons g tl2 =>
      by_cases hfq : f = ""
      · subst hfq
        refine ⟨tabC, (encodeRow (g :: tl2)).data, ?_, by decide, by decide⟩
        rw [encodeRow_cons, str_data_append, str_data_append]
        rfl
      · obtain ⟨c, cs, h, h1, h2⟩ :=
          encodeField_head_safe f (hf f (by simp)) hfq
        refine ⟨c, cs ++ tabC :: (encodeRow (g :: tl2)).data, ?_, h1, h2⟩
        rw [encodeRow_cons, str_data_append, str_data_append, tab_data, h]
        simp

lemma csvParse_startRecord_eq (c : Char) (cs : List Char) (fld : List Char)
    (row : List String) (rows : List (List String))
    (h1 : (c == nlC) = false) (h2 : (c == crC) = false) :
    csvParse (c :: cs) .startRecord fld row rows =
      csvParse (c :: cs) .startField fld row rows := by
  simp only [csvParse, h1, h2, Bool.false_eq_true, if_false]

lemma csvParse_encLines (rs : List (List String))
    (rows : List (List String))
    (h : ∀ r ∈ rs, r ≠ [] ∧ r ≠ [""] ∧ ∀ f ∈ r, noCRLF f = true) :
    csvParse (encodeLines rs).data .startRecord [] [] rows =
      .ok (rows ++ rs) := by
  induction rs generalizing rows with
  | nil => simp [encodeLines, csvParse]
  | cons r tl ih =>
    obtain ⟨hne, hne2, hcr⟩ := h r (by simp)
    obtain ⟨c, cs, hhead, h1, h2⟩ := encodeRow_head_safe r hne hne2 hcr
    have hdata : (encodeLines (r :: tl)).data =
        (encodeRow r).data ++ crC :: nlC :: (encodeLines tl).data := by
      rw [show encodeLines (r :: tl) =
        encodeRow r ++ "\r\n" ++ encodeLines tl from rfl]
      rw [str_data_append, str_data_append, crnl_data]
      simp
    rw [hdata, hhead]
    rw [show (c :: cs) ++ crC :: nlC :: (encodeLines tl).data =
      c :: (cs ++ crC :: nlC :: (encodeLines tl).data) from rfl]
    rw [csvParse_startRecord_eq c _ _ _ _ h1 h2]
    rw [show (c : Char) :: (cs ++ crC :: nlC :: (encodeLines tl).data) =
      (c :: cs) ++ crC :: nlC :: (encodeLines tl).data from rfl]
    rw [← hhead]
    rw [csvParse_encRow r _ [] rows hne hcr]
    rw [ih (rows ++ [[] ++ r]) (fun x hx => h x (by simp [hx]))]
    simp

lemma foldl_dictSet_zip (ps : List (String × String))
    (acc : List (Option String × CellVal))
    (hnd : (ps.map Prod.fst).Nodup)
    (hacc : ∀ q ∈ acc, ∀ p ∈ ps,
      (q.1 == (some p.1 : Option String)) = false) :
    ps.foldl (fun d p => dictSet d (some p.1) (CellVal.str p.2)) acc =
      acc ++ ps.map (fun p => (some p.1, CellVal.str p.2)) := by
  induction ps generalizing acc with
  | nil => simp
  | cons p tl ih =>
    simp only [List.foldl_cons]
    rw [dictSet_fresh _ _ _ (fun q hq => hacc q hq p (by simp))]
    have hnd2 : (tl.map Prod.fst).Nodup := by
      rw [List.map_cons, List.nodup_cons] at hnd
      exact hnd.2
    have hnotmem : p.1 ∉ tl.map Prod.fst := by
      rw [List.map_cons, List.nodup_cons] at hnd
      exact hnd.1
    rw [ih (acc ++ [(some p.1, CellVal.str p.2)]) hnd2 ?_]
    · simp
    · intro q hq p2 hp2
      rcases List.mem_append.mp hq with hq1 | hq2
      · exact hacc q hq1 p2 (by simp [hp2])
      · have hqv : q = (some p.1, CellVal.str p.2) := by simpa using hq2
        rw [hqv]
        have hne : p.1 ≠ p2.1 := by
          intro he
          exact hnotmem (he ▸ List.mem_map_of_mem Prod.fst hp2)
        simp [hne]

lemma rowDict_zip (fn row : List String) (hlen : row.length = fn.length)
    (hnd : fn.Nodup) :
    rowDict fn row =
      (fn.zip row).map (fun p => (some p.1, CellVal.str p.2)) := by
  rw [rowDict]
  have h1 : ¬ fn.length < row.length := by omega
  rw [if_neg h1]
  have h2 : fn.drop row.length = [] := by
    rw [hlen, List.drop_length]
  rw [h2]
  simp only [List.foldl_nil]
  rw [foldl_dictSet_zip (fn.zip row) [] ?_ (by simp)]
  · simp
  · rw [List.map_fst_zip fn row (by omega)]
    exact hnd

/-- C6 counterexample: the single-column table with one data row holding one
empty cell serializes, under the spec's double-quote escaping rule, to a body
whose data line is blank; the csv reader parses the blank line as an empty
record and DictReader skips it, so decoding yields zero rows, not the one
ReportRow the round trip demands. -/
theorem claim6_counterexample :
    ¬ (process_gzip id (id (encodeTable ["h"] [[""]])) =
      .ok ([[""]].map (fun row =>
        ((["h"].zip row).map (fun p => (some p.1, CellVal.str p.2)))))) := by
  intro h
  rw [show process_gzip id (id (encodeTable ["h"] [[""]])) = .ok []
    from rfl] at h
  simp at h

/-- C6 amended: serializing a table of one header row and K data rows as
tab-separated text under the double-quote escaping rule (quote-wrap fields
containing the delimiter or the quote character, double internal quotes),
compressing it, and decoding yields exactly the K ReportRow mappings keyed by
the header fields in original order, including cells with embedded tabs
inside quoted fields, provided the rows match the header arity, the header
fields are distinct, no cell carries a bare line terminator, and neither the
header nor any data row consists of exactly one empty field (such a row
serializes to a blank line, which the decoder skips).  Compression and utf-8
coding are abstracted as any function pair satisfying the decompress-after-
compress identity. -/
theorem claim6_report_roundtrip
    (compress decompress : String → String)
    (hinv : ∀ s, decompress (compress s) = s)
    (header : List String) (rows : List (List String))
    (hhne : header ≠ []) (hh2 : header ≠ [""]) (hnd : header.Nodup)
    (hhcr : ∀ f ∈ header, noCRLF f = true)
    (hlen : ∀ row ∈ rows, row.length = header.length)
    (hrcr : ∀ row ∈ rows, ∀ f ∈ row, noCRLF f = true)
    (hr2 : ∀ row ∈ rows, row ≠ [""]) :
    process_gzip decompress (compress (encodeTable header rows)) =
      .ok (rows.map (fun row =>
        (header.zip row).map (fun p => (some p.1, CellVal.str p.2)))) := by
  rw [process_gzip, hinv]
  have hall : ∀ r ∈ (header :: rows),
      r ≠ [] ∧ r ≠ [""] ∧ ∀ f ∈ r, noCRLF f = true := by
    intro r hr
    rcases List.mem_cons.mp hr with h | h
    · subst h
      exact ⟨hhne, hh2, hhcr⟩
    · refine ⟨?_, hr2 r h, hrcr r h⟩
      intro hnil
      apply hhne
      have hl := hlen r h
      rw [hnil] at hl
      exact List.eq_nil_of_length_eq_zero hl.symm
  have hcsv : csvRows (encodeTable header rows) = .ok (header :: rows) := by
    rw [csvRows, encodeTable, csvParse_encLines (header :: rows) [] hall]
    rfl
  rw [dictReader, hcsv]
  dsimp only
  have hfilter : rows.filter (fun row => !(row == [])) = rows := by
    rw [List.filter_eq_self]
    intro r hr
    have hrne : r ≠ [] := (hall r (by simp [hr])).1
    simpa using hrne
  rw [hfilter]
  congr 1
  apply List.map_congr_left
  intro r hr
  exact rowDict_zip header r (hlen r hr) hnd

/-- Witness for claim6_report_roundtrip on a two-column table whose cells
exercise the embedded-tab and embedded-quote escaping, with the identity as
the compression pair. -/
theorem claim6_witness :
    process_gzip id (id (encodeTable ["h1", "h2"]
        [["a\tb", "c\"d"], ["", "x"]])) =
      .ok ([["a\tb", "c\"d"], ["", "x"]].map (fun row =>
        ((["h1", "h2"].zip row).map
          (fun p => (some p.1, CellVal.str p.2))))) :=
  claim6_report_roundtrip id id (fun s => rfl) ["h1", "h2"]
    [["a\tb", "c\"d"], ["", "x"]] (by decide) (by decide) (by decide)
    (by decide) (by decide) (by decide) (by decide)
